import Mathlib

/-!
Shallow embedding of the incremental translation pipeline
(src/main.ts, with the earlier variant in src/unnamed/part_000).

The pipeline lists files of a remote repository, diffs their content
fingerprints (git blob shas) against a persisted JSON hash document,
translates each changed file through a generative service and writes the
result, then saves the new hash document.  Network and filesystem effects
are modelled as explicit oracle parameters; `Deno.exit(1)` is modelled as
an `Except.error` / an aborted `RunResult` with `exitCode = 1`.
-/

set_option autoImplicit false

namespace TranslateDocs

/-- `FileInfo` (src/main.ts lines 71-75): one remote file matching the
filter, with its repository-relative path, git blob sha (the content
fingerprint) and raw-content URL. -/
structure FileInfo where
  path : String
  sha : String
  content_url : String
deriving DecidableEq, Repr

/-- JavaScript object lookup `obj[key]` on the parsed hash document,
modelled as first-match lookup in an association list (the document is
written by `JSON.stringify` of a `Record`, so keys are unique). -/
def lookup : List (String × String) → String → Option String
  | [], _ => none
  | (k, v) :: rest, p => if k = p then some v else lookup rest p

/-- State of the hash document on disk as seen by `Deno.readTextFile` +
`JSON.parse` in `loadAndDetectDiffs`:
  * `missing` — the read throws `Deno.errors.NotFound`;
  * `invalid` — the read succeeds but `JSON.parse` throws;
  * `valid entries` — the read succeeds and parses to a string-to-string
    mapping. -/
inductive HashFileState where
  | missing
  | invalid
  | valid (entries : List (String × String))
deriving DecidableEq, Repr

/-- The filter of `loadAndDetectDiffs` (src/main.ts lines 82-84):
`repoFiles.filter((file) => existingsHashes[file.path] !== file.sha)`. -/
def changedFilesOf (repoFiles : List FileInfo) (stored : List (String × String)) :
    List FileInfo :=
  repoFiles.filter (fun file => lookup stored file.path != some file.sha)

/-- `loadAndDetectDiffs` of src/main.ts (lines 77-96): read and parse the
hash document, filter the listing to the changed files.  A `NotFound`
read error returns the whole listing; any other error (in particular a
`JSON.parse` failure) hits the `else` branch and calls `Deno.exit(1)`,
modelled as `Except.error`. -/
def loadAndDetectDiffs (repoFiles : List FileInfo) (st : HashFileState) :
    Except Unit (List FileInfo) :=
  match st with
  | .missing => .ok repoFiles
  | .invalid => .error ()
  | .valid stored => .ok (changedFilesOf repoFiles stored)

/-- `loadAndDetectDiffs` of src/unnamed/part_000 (lines 68-82): same
read/parse/filter, but every error — `NotFound` included — is caught,
logged, and an empty list is returned. -/
def loadAndDetectDiffsAlt (repoFiles : List FileInfo) (st : HashFileState) :
    List FileInfo :=
  match st with
  | .missing => []
  | .invalid => []
  | .valid stored =>
      repoFiles.filter (fun file => lookup stored file.path != some file.sha)

/-- One text part of a generative-service candidate. -/
structure Part where
  text : String
deriving DecidableEq, Repr

/-- The `content` of a candidate: its list of text parts. -/
structure Content where
  parts : List Part
deriving DecidableEq, Repr

/-- One candidate of a generative-service response. -/
structure Candidate where
  content : Content
deriving DecidableEq, Repr

/-- The Vertex AI configuration read from the environment inside
`translateText` (src/main.ts lines 100-104); each variable may be unset
(`none`). -/
structure VertexConfig where
  projectId : Option String
  location : Option String
  model : Option String
  prompt_url : Option String
deriving DecidableEq, Repr

/-- JavaScript falsiness of an environment variable: `!x` is true when
the variable is unset or the empty string. -/
def isUnset (o : Option String) : Bool :=
  o.isNone || o == some ""

/-- The guard `!projectId || !location || !model || !prompt_url` of
`translateText` (src/main.ts line 106). -/
def configMissing (cfg : VertexConfig) : Bool :=
  isUnset cfg.projectId || isUnset cfg.location || isUnset cfg.model ||
    isUnset cfg.prompt_url

/-- `translateText` (src/main.ts lines 98-135), with the content fetch
and the service call abstracted into the `respCandidates` argument: the
`candidates` field of the awaited response (`none` when the field is
absent).  Missing configuration returns `undefined` (`none`); a response
with at least one candidate yields
`candidates.flatMap(c => c.content.parts.map(p => p.text))`; an absent
or empty candidate list yields `undefined` (`none`). -/
def translateText (cfg : VertexConfig) (respCandidates : Option (List Candidate)) :
    Option (List String) :=
  if configMissing cfg then none
  else
    match respCandidates with
    | some candidates =>
        if candidates.length > 0 then
          some (candidates.flatMap fun candidate =>
            candidate.content.parts.map fun part => part.text)
        else none
    | none => none

/-- JavaScript `Array.prototype.join(sep)`: elements concatenated with
`sep` between consecutive elements, `""` for the empty array.  Models
the newline join of `translatedContent` (src/main.ts line 178). -/
def joinSep (sep : String) : List String → String
  | [] => ""
  | [t] => t
  | t :: u :: rest => t ++ sep ++ joinSep sep (u :: rest)

/-- `newHashes` (src/main.ts lines 185-188): the object built by
`changedFiles.reduce((acc, file) => { acc[file.path] = file.sha; ... })`,
in insertion order.  Note it is built from `changedFiles`, not from the
files that were written. -/
def newHashes (changedFiles : List FileInfo) : List (String × String) :=
  changedFiles.map fun file => (file.path, file.sha)

/-- Observable outcome of one execution of `main` (src/main.ts lines
147-197):
  * `translateCalls` — the `content_url`s passed to `translateText`, in
    order (the raw-content fetch at the top of `translateText` happens
    for every call, before any configuration check);
  * `writes` — the `(filePath, content)` pairs successfully written by
    `writeFile`, in order;
  * `committed` — the mapping saved by `saveHashToJson`, or `none` when
    the run ended without rewriting the hash document;
  * `exitCode` — the process exit status. -/
structure RunResult where
  translateCalls : List String
  writes : List (String × String)
  committed : Option (List (String × String))
  exitCode : Nat
deriving DecidableEq, Repr

/-- The `for (const file of changedFiles)` loop of `main` (src/main.ts
lines 175-182): for each file call `translateText`; when it returns an
array, write the newline join of `translatedContent` to `file.path`; when it
returns `undefined`, log and continue.  `writeOk` tells whether
`Deno.writeTextFile` succeeds for a path; a failed write calls
`Deno.exit(1)` (src/main.ts line 143), modelled as `Except.error`
carrying the translate calls and writes performed so far. -/
def processFiles (cfg : VertexConfig) (respOf : String → Option (List Candidate))
    (writeOk : String → Bool) :
    List FileInfo →
      Except (List String × List (String × String))
        (List String × List (String × String))
  | [] => .ok ([], [])
  | file :: rest =>
      match translateText cfg (respOf file.content_url) with
      | some translatedContent =>
          if writeOk file.path then
            match processFiles cfg respOf writeOk rest with
            | .ok (calls, writes) =>
                .ok (file.content_url :: calls,
                  (file.path, joinSep "\n" translatedContent) :: writes)
            | .error (calls, writes) =>
                .error (file.content_url :: calls,
                  (file.path, joinSep "\n" translatedContent) :: writes)
          else
            .error ([file.content_url], [])
      | none =>
          match processFiles cfg respOf writeOk rest with
          | .ok (calls, writes) => .ok (file.content_url :: calls, writes)
          | .error (calls, writes) => .error (file.content_url :: calls, writes)

/-- `main` (src/main.ts lines 147-197) from the point where the listing
`filesInRepo` is in hand: diff against the hash document, and when there
are changed files run the processing loop, build `newHashes` from
`changedFiles`, and save it (`saveOk` tells whether the write inside
`saveHashToJson` succeeds; its failure calls `Deno.exit(1)`, line 24).
With no changed files, log and `Deno.exit(0)` without touching the hash
document. -/
def runMain (cfg : VertexConfig) (filesInRepo : List FileInfo) (st : HashFileState)
    (respOf : String → Option (List Candidate)) (writeOk : String → Bool)
    (saveOk : Bool) : RunResult :=
  match loadAndDetectDiffs filesInRepo st with
  | .error _ => { translateCalls := [], writes := [], committed := none, exitCode := 1 }
  | .ok changedFiles =>
      if changedFiles.length > 0 then
        match processFiles cfg respOf writeOk changedFiles with
        | .error (calls, writes) =>
            { translateCalls := calls, writes := writes, committed := none,
              exitCode := 1 }
        | .ok (calls, writes) =>
            if saveOk then
              { translateCalls := calls, writes := writes,
                committed := some (newHashes changedFiles), exitCode := 0 }
            else
              { translateCalls := calls, writes := writes, committed := none,
                exitCode := 1 }
      else
        { translateCalls := [], writes := [], committed := none, exitCode := 0 }

/-- Hash-document state after a run: a committed mapping is what
`JSON.parse` recovers when the next run loads; a run that saved nothing
leaves the document as it was. -/
def nextState (st : HashFileState) (r : RunResult) : HashFileState :=
  match r.committed with
  | some m => .valid m
  | none => st

/-- Spec-side flattening of a response, written after the words of the
joining rule: candidates in response order, and within each candidate
its text parts in order. -/
def partTextsInOrder : List Candidate → List String
  | [] => []
  | c :: rest => c.content.parts.map Part.text ++ partTextsInOrder rest

/-- Spec-side joining of the flattened texts with a single newline
between consecutive texts (the amended joining rule). -/
def joinWithNewline : List String → String
  | [] => ""
  | [t] => t
  | t :: u :: rest => t ++ "\n" ++ joinWithNewline (u :: rest)

/-! ### Concrete scenario material -/

/-- A fully set Vertex AI configuration. -/
def cfgSet : VertexConfig := ⟨some "p", some "l", some "m", some "u"⟩

/-- Scenario file `a.md` with fingerprint `sha1`. -/
def aFile : FileInfo := ⟨"a.md", "sha1", "u_a"⟩

/-- Scenario file `b.md` with fingerprint `sha2`. -/
def bFile : FileInfo := ⟨"b.md", "sha2", "u_b"⟩

/-- Scenario file `c.md` with fingerprint `sha3`. -/
def cFile : FileInfo := ⟨"c.md", "sha3", "u_c"⟩

/-- Scenario listing `[{a.md, sha1}, {b.md, sha2}]`. -/
def exListing : List FileInfo := [aFile, bFile]

/-- Scenario stored mapping `{"a.md": "sha1"}`. -/
def exStored : List (String × String) := [("a.md", "sha1")]

/-- Generative service that answers every request with one candidate
holding the single text part `"translated"`. -/
def exResp : String → Option (List Candidate) :=
  fun _ => some [⟨⟨[⟨"translated"⟩]⟩⟩]

/-- Generative service that answers every request with an empty
candidate list. -/
def emptyResp : String → Option (List Candidate) :=
  fun _ => some []

/-- Writer for which every write succeeds. -/
def allWritesOk : String → Bool := fun _ => true

/-! ### Helper lemmas -/

/-- When every output write succeeds, the processing loop never aborts. -/
theorem processFiles_ok_of_writeOk (cfg : VertexConfig)
    (respOf : String → Option (List Candidate)) (L : List FileInfo) :
    ∃ cw, processFiles cfg respOf (fun _ => true) L = .ok cw := by
  induction L with
  | nil => exact ⟨([], []), rfl⟩
  | cons f rest ih =>
      obtain ⟨⟨calls, writes⟩, hok⟩ := ih
      cases htr : translateText cfg (respOf f.content_url) with
      | some texts =>
          exact ⟨(f.content_url :: calls, (f.path, joinSep "\n" texts) :: writes),
            by simp [processFiles, htr, hok]⟩
      | none =>
          exact ⟨(f.content_url :: calls, writes), by simp [processFiles, htr, hok]⟩

/-- Diffing a listing with unique paths against exactly the hashes
recorded from that listing yields no changed file. -/
theorem changedFilesOf_newHashes_self (L : List FileInfo)
    (h : (L.map FileInfo.path).Nodup) :
    changedFilesOf L (newHashes L) = [] := by
  induction L with
  | nil => rfl
  | cons f rest ih =>
      rw [List.map_cons, List.nodup_cons] at h
      obtain ⟨hnotin, hnd⟩ := h
      have hx : ∀ x ∈ rest, f.path ≠ x.path := by
        intro x hxr heq
        exact hnotin (heq ▸ List.mem_map_of_mem FileInfo.path hxr)
      have hhead : lookup (newHashes (f :: rest)) f.path = some f.sha := by
        simp [newHashes, lookup]
      have htail : rest.filter
            (fun file => lookup (newHashes (f :: rest)) file.path != some file.sha)
          = rest.filter
            (fun file => lookup (newHashes rest) file.path != some file.sha) := by
        apply List.filter_congr
        intro x hxr
        have hlk : lookup (newHashes (f :: rest)) x.path
            = lookup (newHashes rest) x.path := by
          simp [newHashes, lookup, hx x hxr]
        rw [hlk]
      calc changedFilesOf (f :: rest) (newHashes (f :: rest))
          = rest.filter
              (fun file => lookup (newHashes (f :: rest)) file.path != some file.sha) := by
            simp [changedFilesOf, List.filter_cons, hhead]
        _ = changedFilesOf rest (newHashes rest) := by
            rw [htail]; rfl
        _ = [] := ih hnd

/-! ### Claim theorems -/

/-- Claim C4: for every listing and every successfully loaded stored
mapping, a file of the listing is in the change set iff the stored
mapping has no entry for its path or the stored fingerprint differs from
its current fingerprint. -/
theorem changeset_iff_absent_or_differs (files : List FileInfo)
    (stored : List (String × String)) (C : List FileInfo) (f : FileInfo)
    (hload : loadAndDetectDiffs files (.valid stored) = .ok C)
    (hf : f ∈ files) :
    f ∈ C ↔ lookup stored f.path = none ∨
      ∃ s, lookup stored f.path = some s ∧ s ≠ f.sha := by
  have hC : C = changedFilesOf files stored := by
    have := hload
    simp only [loadAndDetectDiffs, Except.ok.injEq] at this
    exact this.symm
  subst hC
  rw [changedFilesOf, List.mem_filter]
  cases hl : lookup stored f.path with
  | none => simp [hf, hl]
  | some s =>
      by_cases hs : s = f.sha
      · subst hs
        simp [hf, hl]
      · simp [hf, hl, hs]

/-- Claim C4 witness: the change-detection equivalence evaluated on the
concrete scenario, at the changed file `b.md`. -/
theorem changeset_iff_absent_or_differs_witness :
    (loadAndDetectDiffs exListing (.valid exStored) = .ok [bFile] ∧
      bFile ∈ exListing) ∧
    (bFile ∈ [bFile] ↔ lookup exStored bFile.path = none ∨
      ∃ s, lookup exStored bFile.path = some s ∧ s ≠ bFile.sha) :=
  ⟨⟨rfl, by decide⟩,
    changeset_iff_absent_or_differs exListing exStored [bFile] bFile
      rfl (by decide)⟩

/-- Claim C5: when no hash document exists at the configured path, the
load is not an error and the change set is the entire listing. -/
theorem missing_hash_doc_yields_whole_listing (files : List FileInfo) :
    loadAndDetectDiffs files .missing = .ok files := rfl

/-- Claim C8: when the computed change set is empty, the run is a
successful no-op — nothing is fetched or transformed, the hash document
is not rewritten, and the exit status is zero. -/
theorem empty_changeset_is_noop (cfg : VertexConfig) (files : List FileInfo)
    (st : HashFileState) (respOf : String → Option (List Candidate))
    (writeOk : String → Bool) (saveOk : Bool)
    (h : loadAndDetectDiffs files st = .ok []) :
    runMain cfg files st respOf writeOk saveOk =
      { translateCalls := [], writes := [], committed := none, exitCode := 0 } := by
  unfold runMain
  rw [h]
  rfl

/-- Claim C8 witness: a run whose only listed file is unchanged is a
successful no-op. -/
theorem empty_changeset_is_noop_witness :
    loadAndDetectDiffs [aFile] (.valid exStored) = .ok [] ∧
    runMain cfgSet [aFile] (.valid exStored) exResp allWritesOk true =
      { translateCalls := [], writes := [], committed := none, exitCode := 0 } :=
  ⟨rfl,
    empty_changeset_is_noop cfgSet [aFile] (.valid exStored) exResp allWritesOk true
      rfl⟩

/-- Claim C9: when the hash document exists but does not parse as JSON,
the run aborts with exit status 1 before any file is fetched,
transformed, or written, and without touching the hash document —
unlike the missing-document first-run case. -/
theorem invalid_hash_doc_aborts_run (cfg : VertexConfig) (files : List FileInfo)
    (respOf : String → Option (List Candidate)) (writeOk : String → Bool)
    (saveOk : Bool) :
    runMain cfg files .invalid respOf writeOk saveOk =
      { translateCalls := [], writes := [], committed := none, exitCode := 1 } := rfl

/-- Claim C10: on a stored mapping that is successfully read and parsed,
the change detection of src/main.ts and the one of src/unnamed/part_000
return the same list of changed files, in the same order. -/
theorem variants_agree_on_parsed_store (files : List FileInfo)
    (stored : List (String × String)) :
    loadAndDetectDiffs files (.valid stored) =
      .ok (loadAndDetectDiffsAlt files (.valid stored)) := rfl

/-- Claim C6: a failed output write during the processing loop ends the
run with exit status 1 and without writing the hash document — no
fingerprint from the current run becomes visible. -/
theorem write_failure_aborts_without_commit (cfg : VertexConfig)
    (files : List FileInfo) (st : HashFileState)
    (respOf : String → Option (List Candidate)) (writeOk : String → Bool)
    (saveOk : Bool) (changedFiles : List FileInfo)
    (t : List String × List (String × String))
    (hload : loadAndDetectDiffs files st = .ok changedFiles)
    (hfail : processFiles cfg respOf writeOk changedFiles = .error t) :
    (runMain cfg files st respOf writeOk saveOk).exitCode = 1 ∧
    (runMain cfg files st respOf writeOk saveOk).committed = none := by
  have hne : changedFiles.length > 0 := by
    cases changedFiles with
    | nil => simp [processFiles] at hfail
    | cons _ _ => simp
  obtain ⟨calls, writes⟩ := t
  unfold runMain
  rw [hload]
  dsimp only
  rw [if_pos hne, hfail]
  exact ⟨rfl, rfl⟩

/-- Claim C6 witness: a run over one changed file whose output write
fails exits with status 1 and commits nothing. -/
theorem write_failure_aborts_without_commit_witness :
    loadAndDetectDiffs [aFile] .missing = .ok [aFile] ∧
    processFiles cfgSet exResp (fun _ => false) [aFile] = .error (["u_a"], []) ∧
    ((runMain cfgSet [aFile] .missing exResp (fun _ => false) true).exitCode = 1 ∧
      (runMain cfgSet [aFile] .missing exResp (fun _ => false) true).committed = none) :=
  ⟨rfl, rfl,
    write_failure_aborts_without_commit cfgSet [aFile] .missing exResp
      (fun _ => false) true [aFile] (["u_a"], []) rfl rfl⟩

/-- Claim C2 counterexample: in the scenario with stored mapping
`{"a.md": "sha1"}` and listing `[{a.md, sha1}, {b.md, sha2}]`, the
document committed at the end of the run is `{"b.md": "sha2"}` — it has
no entry at all for `a.md`, so it does not equal the carried-forward
mapping `{"a.md": "sha1", "b.md": "sha2"}` the claim asserts. -/
theorem scenario_drops_unchanged_entry :
    (runMain cfgSet exListing (.valid exStored) exResp allWritesOk true).committed
      = some [("b.md", "sha2")] ∧
    lookup [("b.md", "sha2")] "a.md" = none := by
  exact ⟨rfl, rfl⟩

/-- Claim C2 (amended): in the scenario, the change set is exactly
`[{b.md, sha2}]`, only `b.md` is fetched, transformed and written, and
the committed document is `{"b.md": "sha2"}` — entries of unchanged
files are not carried forward; the new document holds only the changed
files of this run. -/
theorem scenario_changed_only_commit :
    loadAndDetectDiffs exListing (.valid exStored) = .ok [bFile] ∧
    (runMain cfgSet exListing (.valid exStored) exResp allWritesOk true).translateCalls
      = ["u_b"] ∧
    (runMain cfgSet exListing (.valid exStored) exResp allWritesOk true).writes
      = [("b.md", "translated")] ∧
    (runMain cfgSet exListing (.valid exStored) exResp allWritesOk true).committed
      = some [("b.md", "sha2")] := by
  exact ⟨rfl, rfl, rfl, rfl⟩

/-- Claim C1: code evaluated at the failing input.  With a missing hash
document, the single listed file `c.md` changed, and a generative
service returning an empty candidate list, the run writes no output file
yet commits `{"c.md": "sha3"}` and exits 0 — `newHashes` is built from
`changedFiles`, not from the files actually written, so the fingerprint
of the skipped file is committed and `c.md` is never retried. -/
theorem skipped_file_fingerprint_still_committed :
    (runMain cfgSet [cFile] .missing emptyResp allWritesOk true).writes = [] ∧
    (runMain cfgSet [cFile] .missing emptyResp allWritesOk true).committed
      = some [("c.md", "sha3")] ∧
    (runMain cfgSet [cFile] .missing emptyResp allWritesOk true).exitCode = 0 := by
  exact ⟨rfl, rfl, rfl⟩

/-- First run of the pipeline, started with no hash document on disk,
with every write and the final save succeeding. -/
def firstRunFromMissing (cfg : VertexConfig) (L : List FileInfo)
    (respOf : String → Option (List Candidate)) : RunResult :=
  runMain cfg L .missing respOf (fun _ => true) true

/-- Hash-document state after `firstRunFromMissing`. -/
def stateAfterFirstRun (cfg : VertexConfig) (L : List FileInfo)
    (respOf : String → Option (List Candidate)) : HashFileState :=
  nextState .missing (firstRunFromMissing cfg L respOf)

/-- Second run of the pipeline over the unchanged remote listing,
loading the document the first run committed. -/
def secondRunFromMissing (cfg : VertexConfig) (L : List FileInfo)
    (respOf : String → Option (List Candidate)) : RunResult :=
  runMain cfg L (stateAfterFirstRun cfg L respOf) respOf (fun _ => true) true

/-- Claim C3 counterexample: with stored mapping `{"a.md": "sha1"}` and
listing `[{a.md, sha1}, {b.md, sha2}]`, nothing changing remotely
between runs, the second run translates `a.md` — the first run dropped
the `a.md` entry from the committed document, so the second run is not
a no-op and the document keeps changing. -/
theorem second_run_retranslates :
    (runMain cfgSet exListing
        (nextState (.valid exStored)
          (runMain cfgSet exListing (.valid exStored) exResp allWritesOk true))
        exResp allWritesOk true).translateCalls = ["u_a"] ∧
    ["u_a"] ≠ ([] : List String) := by
  exact ⟨rfl, by decide⟩

/-- Claim C3 (amended): idempotence holds when the first run starts with
no hash document (so its change set is the whole listing): provided the
listing paths are unique and all writes and saves succeed, the second
run over the unchanged listing performs zero translations, writes
nothing, and leaves the hash document exactly as the first run left it. -/
theorem idempotent_from_missing_store (cfg : VertexConfig) (L : List FileInfo)
    (respOf : String → Option (List Candidate))
    (h : (L.map FileInfo.path).Nodup) :
    (secondRunFromMissing cfg L respOf).translateCalls = [] ∧
    (secondRunFromMissing cfg L respOf).writes = [] ∧
    nextState (stateAfterFirstRun cfg L respOf) (secondRunFromMissing cfg L respOf)
      = stateAfterFirstRun cfg L respOf := by
  by_cases hL : L = []
  · subst hL
    exact ⟨rfl, rfl, rfl⟩
  · have hlen : L.length > 0 := List.length_pos.mpr hL
    obtain ⟨⟨calls, writes⟩, hok⟩ := processFiles_ok_of_writeOk cfg respOf L
    have h1 : firstRunFromMissing cfg L respOf =
        { translateCalls := calls, writes := writes,
          committed := some (newHashes L), exitCode := 0 } := by
      unfold firstRunFromMissing runMain loadAndDetectDiffs
      dsimp only
      rw [if_pos hlen, hok]
      rfl
    have h2 : stateAfterFirstRun cfg L respOf = .valid (newHashes L) := by
      unfold stateAfterFirstRun nextState
      rw [h1]
    have h3 : secondRunFromMissing cfg L respOf =
        { translateCalls := [], writes := [], committed := none, exitCode := 0 } := by
      unfold secondRunFromMissing
      rw [h2]
      unfold runMain loadAndDetectDiffs
      dsimp only
      rw [changedFilesOf_newHashes_self L h]
      rfl
    refine ⟨by rw [h3], by rw [h3], ?_⟩
    unfold nextState
    rw [h3]

/-- Claim C3 witness: the amended idempotence statement evaluated on the
two-file scenario listing, started with no hash document. -/
theorem idempotent_from_missing_store_witness :
    (exListing.map FileInfo.path).Nodup ∧
    ((secondRunFromMissing cfgSet exListing exResp).translateCalls = [] ∧
      (secondRunFromMissing cfgSet exListing exResp).writes = [] ∧
      nextState (stateAfterFirstRun cfgSet exListing exResp)
          (secondRunFromMissing cfgSet exListing exResp)
        = stateAfterFirstRun cfgSet exListing exResp) :=
  ⟨by decide, idempotent_from_missing_store cfgSet exListing exResp (by decide)⟩

/-- Claim C7 counterexample: for the one-candidate response with text
parts `"a"` and `"b"`, the transformer extracts `["a", "b"]`, and the
text written for the file is the newline join `"a\nb"`, which is not the
plain concatenation `"ab"` of the text parts. -/
theorem join_inserts_newline :
    translateText cfgSet (some [⟨⟨[⟨"a"⟩, ⟨"b"⟩]⟩⟩]) = some ["a", "b"] ∧
    joinSep "\n" ["a", "b"] = "a\nb" ∧
    "a\nb" ≠ "a" ++ "b" := by
  refine ⟨rfl, rfl, by decide⟩

/-- Claim C7 (amended): for every response with at least one candidate
(and a fully set configuration), the resulting text is every text part
of every candidate — candidates in response order, and within each
candidate its parts in order — joined with a single newline between
consecutive parts, not their plain concatenation. -/
theorem join_rule_newline (cfg : VertexConfig) (candidates : List Candidate)
    (hcfg : configMissing cfg = false) (hne : candidates ≠ []) :
    (translateText cfg (some candidates)).map (joinSep "\n")
      = some (joinWithNewline (partTextsInOrder candidates)) := by
  have hflat : ∀ cs : List Candidate,
      (cs.flatMap fun candidate =>
        candidate.content.parts.map fun part => part.text)
      = partTextsInOrder cs := by
    intro cs
    induction cs with
    | nil => rfl
    | cons c rest ih => simp [partTextsInOrder, ih]
  have hjoin : ∀ ts : List String, joinSep "\n" ts = joinWithNewline ts := by
    intro ts
    induction ts with
    | nil => rfl
    | cons t rest ih =>
        cases rest with
        | nil => rfl
        | cons u rest2 =>
            show t ++ "\n" ++ joinSep "\n" (u :: rest2)
              = t ++ "\n" ++ joinWithNewline (u :: rest2)
            rw [ih]
  simp [translateText, hcfg, hflat, hjoin, List.length_pos.mpr hne]

/-- Claim C7 witness: the newline joining rule evaluated on a response
with one candidate holding the two text parts `"a"` and `"b"`. -/
theorem join_rule_newline_witness :
    configMissing cfgSet = false ∧
    ([⟨⟨[⟨"a"⟩, ⟨"b"⟩]⟩⟩] : List Candidate) ≠ [] ∧
    (translateText cfgSet (some [⟨⟨[⟨"a"⟩, ⟨"b"⟩]⟩⟩])).map (joinSep "\n")
      = some (joinWithNewline (partTextsInOrder [⟨⟨[⟨"a"⟩, ⟨"b"⟩]⟩⟩])) :=
  ⟨by decide, by decide,
    join_rule_newline cfgSet [⟨⟨[⟨"a"⟩, ⟨"b"⟩]⟩⟩] (by decide) (by decide)⟩

end TranslateDocs
